import Mathlib

/-!
Verification development for extract1kgBAM.py, a batch extraction-and-merge
orchestrator over samtools.  Python strings are modelled as lists of
characters; the filesystem is modelled by explicit predicates and by the
manifest file contents passed around explicitly; external tool calls are
modelled by the decision of whether they are issued.
-/

namespace ExtractBam

/-- Python strings are modelled as lists of characters. -/
abbrev Str : Type := List Char

/-- Python whitespace characters, the set stripped by str.rstrip() with no
argument. -/
def isPyWs (c : Char) : Bool :=
  (c == ' ') || (c == '\t') || (c == '\n') || (c == '\r') ||
  (c == Char.ofNat 11) || (c == Char.ofNat 12)

/-- Python str.rstrip() with no argument (source line 79): drop trailing
whitespace characters. -/
def pyRstripWs (s : Str) : Str := (s.reverse.dropWhile isPyWs).reverse

/-- Python str.rstrip(chars) (source line 153): drop trailing characters that
belong to the character SET chars — not the suffix chars. -/
def pyRstripChars (s cs : Str) : Str :=
  (s.reverse.dropWhile (fun c => cs.contains c)).reverse

/-- Python line.rstrip with the single newline character (source line 116). -/
def rstripNl (s : Str) : Str := (s.reverse.dropWhile (fun c => c == '\n')).reverse

/-- os.path.basename for POSIX paths: everything after the last slash. -/
def basename (p : Str) : Str := (p.reverse.takeWhile (fun c => c != '/')).reverse

/-- Source lines 151-153: bn = os.path.basename(bam); pre = bn.rstrip(".bam"). -/
def prefixOf (bam : Str) : Str := pyRstripChars (basename bam) ".bam".data

/-- Spec-side model of prefix derivation, following the spec words: the base
name with the fixed suffix ".bam" stripped, unchanged when the suffix is
absent.  Kept for comparison with prefixOf, which embeds the source. -/
def stripBamSuffix (bn : Str) : Str :=
  if (".bam".data).isSuffixOf bn then bn.take (bn.length - 4) else bn

/-- os.path.join for two POSIX path components. -/
def pyJoin (a b : Str) : Str :=
  if b.head? = some '/' then b
  else if a = [] then b
  else if a.getLast? = some '/' then a ++ b
  else a ++ '/' :: b

/-- Source lines 92-94: outdir_sub = os.path.join(outdir, "subbam") and the
format string giving outbam = outdir_sub / region . pre . bam — the
deterministic output path of one extraction job. -/
def outbamPath (outdir region pre : Str) : Str :=
  pyJoin outdir "subbam".data ++ '/' :: (region ++ '.' :: (pre ++ ".bam".data))

/-- Source lines 74-87, create_bamlist: the manifest file is modelled as the
list of payload lines as written, one path per line.  When the file exists the
code reads every line and applies rstrip() to it — which removes the line
terminator together with any trailing whitespace of the stored path — and
appends outbam only if it is not among the rstripped lines; when the file does
not exist it is created holding just outbam. -/
def create_bamlist (outbam : Str) : Option (List Str) → List Str
  | none => [outbam]
  | some entries =>
      if outbam ∈ entries.map pyRstripWs then entries else entries ++ [outbam]

/-- Iterated manifest append: n+1 calls of create_bamlist with the same path,
starting from a missing manifest file. -/
def appendIter (p : Str) : ℕ → List Str
  | 0 => create_bamlist p none
  | n + 1 => create_bamlist p (some (appendIter p n))

/-- Python text-file iteration: content is cut after each newline character, a
final unterminated segment is kept, and each produced line retains its
terminating newline. -/
def pyFileLinesAux (acc : Str) : Str → List Str
  | [] => if acc = [] then [] else [acc.reverse]
  | c :: rest =>
      if c = '\n' then (acc.reverse ++ ['\n']) :: pyFileLinesAux [] rest
      else pyFileLinesAux (c :: acc) rest

/-- Lines of a file content, as Python file iteration yields them. -/
def pyFileLines (content : Str) : List Str := pyFileLinesAux [] content

/-- Source line 116: regions = [line.rstrip of the newline for line in f]. -/
def extractbams_regions (content : Str) : List Str :=
  (pyFileLines content).map rstripNl

/-- Python exceptions relevant to the embedded fragments. -/
inductive PyErr
  | typeError
  | ioError
deriving DecidableEq

/-- Source lines 114-116 together with open(): an unreadable target path
raises IOError; otherwise the loader returns one region per line of the
content. -/
def loadRegions : Option Str → Except PyErr (List Str)
  | none => Except.error PyErr.ioError
  | some content => Except.ok (extractbams_regions content)

/-- Spec-side line splitting, defined independently of the file iterator: the
segments between newline characters, one per line, carrying no terminator,
where a trailing newline opens no further line. -/
def linesSpecAux (acc : Str) : Str → List Str
  | [] => if acc = [] then [] else [acc.reverse]
  | c :: rest =>
      if c = '\n' then acc.reverse :: linesSpecAux [] rest
      else linesSpecAux (c :: acc) rest

/-- Spec-side lines of a file content. -/
def linesSpec (content : Str) : List Str := linesSpecAux [] content

/-- Skip annotation appended to the timing log line, source line 106/139. -/
def skipMsg : Str := " SKIP: same file found".data

/-- Observable outcome of one extraction job: the deterministic output path,
whether the external extraction tool was invoked, the skip annotation carried
by the timing log line, and whether the manifest was appended to. -/
structure JobOutcome where
  outbam : Str
  invoked : Bool
  skipNote : Str
  manifestAppended : Bool
deriving DecidableEq

/-- Source lines 89-106, extractbam(bam, pre, outdir, region, force): the
isfile argument models os.path.isfile on the surrounding filesystem; the model
describes the completed run of the job, assuming the external call eventually
succeeds (the tenacity wrapper re-runs the body until it does).  If force is
set the tool runs and the manifest is appended; otherwise the tool runs only
when the output path is not already a file, and an existing file yields a skip
annotation and no manifest append. -/
def extractbam (isfile : Str → Bool) (bam pre outdir region : Str)
    (force : Bool) : JobOutcome :=
  let outbam := outbamPath outdir region pre
  if force then
    { outbam := outbam, invoked := true, skipNote := [], manifestAppended := true }
  else if !(isfile outbam) then
    { outbam := outbam, invoked := true, skipNote := [], manifestAppended := true }
  else
    { outbam := outbam, invoked := false, skipNote := skipMsg, manifestAppended := false }

/-- Events of one Per-File Driver task: an extraction job for a region, or the
merge-step call of line 161. -/
inductive Event
  | extractJob (region : Str)
  | mergeCall
deriving DecidableEq

/-- Whether an event is an extraction job. -/
def isExtract : Event → Bool
  | Event.extractJob _ => true
  | Event.mergeCall => false

/-- Source lines 114-120, extractbams: the list comprehension runs one
extraction job per region, strictly in list order. -/
def extractbamsTrace (regions : List Str) : List Event :=
  regions.map Event.extractJob

/-- Source lines 160-161: the driver runs extractbams to completion and then
issues the call to mergebam; the event trace is the region jobs in order
followed by the merge-step call. -/
def extract1kgBAM_trace (regions : List Str) : List Event :=
  extractbamsTrace regions ++ [Event.mergeCall]

/-- External samtools invocations issued by one Per-File Driver task. -/
inductive Tool
  | view (region : Str)
  | merge
  | index
deriving DecidableEq

/-- Source lines 122-145, mergebam(outdir, pre, force), modelled faithfully
from its body: if force is set, or the merged artifact is not already a file,
invoke samtools merge and then samtools index; otherwise invoke nothing and
carry the skip annotation.  Returns the tools invoked and the annotation. -/
def mergebam (isfile : Str → Bool) (outdir pre : Str) (force : Bool) :
    List Tool × Str :=
  let mergedbam := pyJoin outdir (pre ++ ".targets.bam".data)
  if force then ([Tool.merge, Tool.index], [])
  else if !(isfile mergedbam) then ([Tool.merge, Tool.index], [])
  else ([], skipMsg)

/-- Source lines 147-161, extract1kgBAM: derives the prefix and output
directory, runs every region job (tool invoked exactly when the job decision
says so, assuming each invocation eventually succeeds), and then executes line
161, which calls mergebam with two arguments although mergebam declares three
required parameters (line 122) — Python therefore raises TypeError at the call
site, before the body of mergebam can run, so neither samtools merge nor
samtools index is ever invoked. -/
def extract1kgBAM_run (isfile : Str → Bool) (bam wkdir : Str)
    (regions : List Str) (force : Bool) : List Tool × Option PyErr :=
  let pre := prefixOf bam
  let outdir := pyJoin wkdir pre
  (regions.filterMap (fun r =>
      if (extractbam isfile bam pre outdir r force).invoked
      then some (Tool.view r) else none),
   some PyErr.typeError)

/-- Observable effects of main (source lines 197-241) that the usage-error
claim talks about. -/
structure MainEffects where
  printedUsage : Bool
  createdWorkdir : Bool
  createdTopLog : Bool
  ranPurgeSweep : Bool
  ranBatch : Bool
  ranSingle : Bool
deriving DecidableEq

/-- Source lines 197-241: main enters the working branch when bam or bamlist
is present (line 214) — creating the working directory, the top-level log and
running the purge sweep — and runprogram (lines 198-202) dispatches batch mode
only when bam is absent and bamlist present, single mode only when bam is
present and bamlist absent.  Only when both are absent is the usage message
printed and nothing done. -/
def mainDispatch (bam bamlist : Option Str) : MainEffects :=
  if bam.isSome || bamlist.isSome then
    { printedUsage := false, createdWorkdir := true, createdTopLog := true,
      ranPurgeSweep := true,
      ranBatch := bam.isNone && bamlist.isSome,
      ranSingle := bam.isSome && bamlist.isNone }
  else
    { printedUsage := true, createdWorkdir := false, createdTopLog := false,
      ranPurgeSweep := false, ranBatch := false, ranSingle := false }

/-- Source line 72: the bare tenacity.retry decorator re-runs the body until
it succeeds, with no stop bound and no wait between attempts.  Modelled by
scanning successive attempts, observed through a fuel bound: the result is
some n when attempt n is the first success reached within fuel attempts, and
none when no attempt within the fuel succeeds (the runner is still retrying). -/
def retryRun (succeeds : ℕ → Bool) : ℕ → ℕ → Option ℕ
  | _, 0 => none
  | attempt, fuel + 1 =>
      if succeeds attempt then some attempt
      else retryRun succeeds (attempt + 1) fuel

/-- The retry loop terminates: some finite number of attempts reaches a
success. -/
def retryTerminates (succeeds : ℕ → Bool) : Prop :=
  ∃ fuel, (retryRun succeeds 0 fuel).isSome = true

/-- Window test of re.search for the pattern ".bam.bai" at the current
offset: in Python a dot matches any character except a newline. -/
def matchHere : Str → Bool
  | c0 :: c1 :: c2 :: c3 :: c4 :: c5 :: c6 :: c7 :: _ =>
      (c0 != '\n') && (c1 == 'b') && (c2 == 'a') && (c3 == 'm') &&
      (c4 != '\n') && (c5 == 'b') && (c6 == 'a') && (c7 == 'i')
  | _ => false

/-- Source line 64, re.search(".bam.bai", f): try the window at every
offset of the name. -/
def searchBamBai : Str → Bool
  | [] => false
  | c :: rest => matchHere (c :: rest) || searchBamBai rest

/-- Claim-side reading of the pattern in which each dot matches ANY single
character, newline included.  Kept for comparison with matchHere. -/
def matchHereAny : Str → Bool
  | _ :: c1 :: c2 :: c3 :: _ :: c5 :: c6 :: c7 :: _ =>
      (c1 == 'b') && (c2 == 'a') && (c3 == 'm') &&
      (c5 == 'b') && (c6 == 'a') && (c7 == 'i')
  | _ => false

/-- Claim-side search with the any-character dots. -/
def anyDotSearch : Str → Bool
  | [] => false
  | c :: rest => matchHereAny (c :: rest) || anyDotSearch rest

/-- Source lines 62-65, purge(dir, pattern) at pattern ".bam.bai": every
listed file whose name matches somewhere is removed; the result is the list of
files that remain in the directory. -/
def purge (files : List Str) : List Str :=
  files.filter (fun f => !(searchBamBai f))

/-- A name matches iff it decomposes around an 8-character window of shape
dot b a m dot b a i whose two dot positions hold non-newline characters. -/
def hasBamBaiMatch (f : Str) : Prop :=
  ∃ (u v : Str) (c0 c4 : Char),
    f = u ++ c0 :: 'b' :: 'a' :: 'm' :: c4 :: 'b' :: 'a' :: 'i' :: v ∧
    c0 ≠ '\n' ∧ c4 ≠ '\n'

/-! ### Helper lemmas -/

theorem rstripWs_append_bam (l : Str) :
    pyRstripWs (l ++ ".bam".data) = l ++ ".bam".data := by
  show pyRstripWs (l ++ ['.', 'b', 'a', 'm']) = l ++ ['.', 'b', 'a', 'm']
  have hm : isPyWs 'm' = false := rfl
  simp [pyRstripWs, List.reverse_append, List.dropWhile_cons, hm]

theorem outbamPath_shape (outdir region pre : Str) :
    outbamPath outdir region pre =
      (pyJoin outdir "subbam".data ++ '/' :: (region ++ '.' :: pre)) ++ ".bam".data := by
  simp [outbamPath, List.append_assoc]

theorem rstripWs_outbamPath (outdir region pre : Str) :
    pyRstripWs (outbamPath outdir region pre) = outbamPath outdir region pre := by
  rw [outbamPath_shape, rstripWs_append_bam]

theorem appendIter_outbam (outdir region pre : Str) :
    ∀ n, appendIter (outbamPath outdir region pre) n = [outbamPath outdir region pre] := by
  intro n
  induction n with
  | zero => rfl
  | succ n ih => simp [appendIter, ih, create_bamlist, rstripWs_outbamPath]

theorem dropWhile_nl_of_not_mem (l : Str) (h : '\n' ∉ l) :
    l.dropWhile (fun c => c == '\n') = l := by
  rcases l with _ | ⟨c, t⟩
  · rfl
  · have hc : (c == '\n') = false := by
      have : c ≠ '\n' := fun he => h (he ▸ List.mem_cons_self c t)
      simp [this]
    simp [List.dropWhile_cons, hc]

theorem rstripNl_eq_self (l : Str) (h : '\n' ∉ l) : rstripNl l = l := by
  unfold rstripNl
  rw [dropWhile_nl_of_not_mem l.reverse (by simpa using h), List.reverse_reverse]

theorem rstripNl_append_nl (l : Str) (h : '\n' ∉ l) : rstripNl (l ++ ['\n']) = l := by
  unfold rstripNl
  rw [List.reverse_append]
  show (List.dropWhile (fun c => c == '\n') ('\n' :: l.reverse)).reverse = l
  rw [List.dropWhile_cons]
  simp only [beq_self_eq_true, if_true]
  rw [dropWhile_nl_of_not_mem l.reverse (by simpa using h), List.reverse_reverse]

theorem pyFileLinesAux_spec :
    ∀ (s acc : Str), '\n' ∉ acc →
      (pyFileLinesAux acc s).map rstripNl = linesSpecAux acc s := by
  intro s
  induction s with
  | nil =>
      intro acc h
      by_cases hacc : acc = []
      · simp [pyFileLinesAux, linesSpecAux, hacc]
      · simp [pyFileLinesAux, linesSpecAux, hacc,
          rstripNl_eq_self acc.reverse (by simpa using h)]
  | cons c rest ih =>
      intro acc h
      by_cases hc : c = '\n'
      · subst hc
        simp [pyFileLinesAux, linesSpecAux,
          rstripNl_append_nl acc.reverse (by simpa using h), ih [] (by simp)]
      · have h' : '\n' ∉ c :: acc := by
          intro hm
          rcases List.mem_cons.mp hm with h1 | h2
          · exact hc h1.symm
          · exact h h2
        simp [pyFileLinesAux, linesSpecAux, hc, ih (c :: acc) h']

/-! ### C2 — usage error when both or neither input option is supplied -/

/-- C2 counterexample: when both a bam and a bamlist are supplied, main does
not report the usage error; it creates the working directory and top-level log
and runs the purge sweep over the current working directory. -/
theorem usage_both_counterexample :
    (mainDispatch (some "a.bam".data) (some "b.list".data)).printedUsage = false ∧
    (mainDispatch (some "a.bam".data) (some "b.list".data)).createdWorkdir = true ∧
    (mainDispatch (some "a.bam".data) (some "b.list".data)).createdTopLog = true ∧
    (mainDispatch (some "a.bam".data) (some "b.list".data)).ranPurgeSweep = true :=
  ⟨rfl, rfl, rfl, rfl⟩

/-- C2 amended: only when neither option is supplied does the program report
the usage error and perform no work; when both are supplied it proceeds with
bootstrap — creating the working directory and top-level log and running the
cleanup sweep — but dispatches neither single-file nor batch processing. -/
theorem usage_amended :
    mainDispatch none none =
      { printedUsage := true, createdWorkdir := false, createdTopLog := false,
        ranPurgeSweep := false, ranBatch := false, ranSingle := false } ∧
    ∀ b l : Str, mainDispatch (some b) (some l) =
      { printedUsage := false, createdWorkdir := true, createdTopLog := true,
        ranPurgeSweep := true, ranBatch := false, ranSingle := false } :=
  ⟨rfl, fun _ _ => rfl⟩

/-! ### C3 — region list loader -/

/-- C3 counterexample: on the content holding an empty middle line, the loader
returns three regions, the middle one the empty string — not one region per
non-empty line. -/
theorem region_loader_counterexample :
    loadRegions (some "a\n\nb\n".data) =
      Except.ok ("a".data :: ([] : Str) :: "b".data :: []) ∧
    ("a".data :: ([] : Str) :: "b".data :: []) ≠ ("a".data :: "b".data :: []) := by
  refine ⟨rfl, by decide⟩

/-- C3 amended: for every readable target file the loader returns exactly one
region per line of the file — an empty line contributing an empty region
string — in file order with the trailing newline stripped, and an unopenable
path fails with IOError. -/
theorem region_loader_amended (content : Str) :
    loadRegions (some content) = Except.ok (linesSpec content) ∧
    loadRegions none = Except.error PyErr.ioError := by
  refine ⟨?_, rfl⟩
  simp only [loadRegions, extractbams_regions, pyFileLines, linesSpec,
    pyFileLinesAux_spec content [] (by simp)]

/-! ### C4 — prefix derivation -/

/-- C4: the code computes the prefix with str.rstrip(".bam"), which strips
trailing characters drawn from the set containing dot, b, a and m rather than
the suffix ".bam": on the base name "data.bam" it yields "dat" where the
claimed suffix-stripping yields "data". -/
theorem prefix_rstrip_bug :
    prefixOf "data.bam".data = "dat".data ∧
    stripBamSuffix (basename "data.bam".data) = "data".data ∧
    prefixOf "data.bam".data ≠ stripBamSuffix (basename "data.bam".data) := by
  refine ⟨by decide, by decide, by decide⟩

/-! ### C5 — output manifest append -/

/-- C5: manifest append is idempotent for the artifact paths of this program
(every artifact path has the shape produced by outbamPath).  A missing
manifest is created holding just the path; an append either leaves the file
unchanged or adds the one path at the end, so entries are only ever added; and
appending the same artifact path any number of times leaves the manifest
containing it exactly once. -/
theorem manifest_append_idempotent (outdir region pre : Str) :
    create_bamlist (outbamPath outdir region pre) none = [outbamPath outdir region pre] ∧
    (∀ (q : Str) (m : List Str),
        create_bamlist q (some m) = m ∨ create_bamlist q (some m) = m ++ [q]) ∧
    (∀ n : ℕ, (appendIter (outbamPath outdir region pre) n).count
        (outbamPath outdir region pre) = 1) := by
  refine ⟨rfl, ?_, ?_⟩
  · intro q m
    by_cases h : q ∈ m.map pyRstripWs
    · exact Or.inl (by simp [create_bamlist, h])
    · exact Or.inr (by simp [create_bamlist, h])
  · intro n
    rw [appendIter_outbam]
    simp

/-! ### C6 — extraction job skip policy -/

/-- C6: with force set the extraction tool is always invoked; without force it
is invoked exactly when the deterministic output path — a function of output
directory, region and prefix — is not already a file, an existing file
yielding a skipped job carrying the skip annotation; and the manifest is
appended exactly when the tool was invoked, never on a skip. -/
theorem extraction_skip_policy (isfile : Str → Bool) (bam pre outdir region : Str)
    (force : Bool) :
    (extractbam isfile bam pre outdir region force).outbam = outbamPath outdir region pre ∧
    (force = true → (extractbam isfile bam pre outdir region force).invoked = true) ∧
    (force = false →
      ((extractbam isfile bam pre outdir region force).invoked = true ↔
        isfile (outbamPath outdir region pre) = false)) ∧
    (force = false → isfile (outbamPath outdir region pre) = true →
      (extractbam isfile bam pre outdir region force).invoked = false ∧
      (extractbam isfile bam pre outdir region force).skipNote = skipMsg ∧
      (extractbam isfile bam pre outdir region force).manifestAppended = false) ∧
    ((extractbam isfile bam pre outdir region force).manifestAppended =
      (extractbam isfile bam pre outdir region force).invoked) := by
  cases force <;> by_cases h : isfile (outbamPath outdir region pre) = true <;>
    simp_all [extractbam]

/-- Witness for the skip policy at a concrete input: on an empty filesystem
with force unset the tool is invoked. -/
theorem extraction_skip_policy_witness :
    (extractbam (fun _ => false) "s.bam".data "s".data "wd".data
      "chr1:1-100".data false).invoked = true := by
  have h := extraction_skip_policy (fun _ => false) "s.bam".data "s".data "wd".data
    "chr1:1-100".data false
  exact (h.2.2.1 rfl).mpr rfl

/-! ### C8 — intra-file ordering -/

theorem trace_get (regions : List Str) :
    ∀ (i : ℕ) (hi : i < (extract1kgBAM_trace regions).length),
      (extract1kgBAM_trace regions).get ⟨i, hi⟩ =
        if h : i < regions.length then Event.extractJob (regions.get ⟨i, h⟩)
        else Event.mergeCall := by
  induction regions with
  | nil =>
      intro i hi
      have hi0 : i = 0 := by
        simp [extract1kgBAM_trace, extractbamsTrace] at hi
        omega
      subst hi0
      rfl
  | cons r rs ih =>
      intro i hi
      cases i with
      | zero =>
          rw [dif_pos (by simp)]
          rfl
      | succ k =>
          have hk : k < (extract1kgBAM_trace rs).length := by
            simp [extract1kgBAM_trace, extractbamsTrace] at hi ⊢
            omega
          have hstep : (extract1kgBAM_trace (r :: rs)).get ⟨k + 1, hi⟩ =
              (extract1kgBAM_trace rs).get ⟨k, hk⟩ := rfl
          rw [hstep, ih k hk]
          by_cases hkl : k < rs.length
          · rw [dif_pos hkl, dif_pos (by simp only [List.length_cons]; omega)]
            rfl
          · rw [dif_neg hkl, dif_neg (by simp only [List.length_cons]; omega)]

/-- C8: within one input file task the extraction jobs of the event trace are
exactly the regions in list order, and the merge-step call occurs strictly
after every extraction job. -/
theorem perfile_order (regions : List Str) :
    (extract1kgBAM_trace regions).filter isExtract = regions.map Event.extractJob ∧
    (∀ (i j : ℕ) (hi : i < (extract1kgBAM_trace regions).length)
        (hj : j < (extract1kgBAM_trace regions).length),
        (extract1kgBAM_trace regions).get ⟨i, hi⟩ = Event.mergeCall →
        isExtract ((extract1kgBAM_trace regions).get ⟨j, hj⟩) = true → j < i) := by
  have hlen : (extract1kgBAM_trace regions).length = regions.length + 1 := by
    simp [extract1kgBAM_trace, extractbamsTrace]
  constructor
  · have h1 : (extractbamsTrace regions).filter isExtract = extractbamsTrace regions :=
      List.filter_eq_self.mpr (fun a ha => by
        rcases List.mem_map.mp ha with ⟨r, _, rfl⟩
        rfl)
    simp only [extract1kgBAM_trace, List.filter_append, h1]
    simp [extractbamsTrace, isExtract]
  · intro i j hi hj hmc hex
    have hi2 : i < regions.length + 1 := by rw [hlen] at hi; exact hi
    rw [trace_get regions i hi] at hmc
    rw [trace_get regions j hj] at hex
    by_cases hil : i < regions.length
    · rw [dif_pos hil] at hmc
      exact absurd hmc (by simp)
    · by_cases hjl : j < regions.length
      · omega
      · rw [dif_neg hjl] at hex
        simp [isExtract] at hex

/-- Witness for the ordering theorem at a concrete two-region list: the merge
call at position two follows the extraction at position zero. -/
theorem perfile_order_witness :
    (extract1kgBAM_trace ("r1".data :: "r2".data :: [])).filter isExtract =
      ("r1".data :: "r2".data :: []).map Event.extractJob ∧ (0 : ℕ) < 2 := by
  refine ⟨(perfile_order ("r1".data :: "r2".data :: [])).1, ?_⟩
  exact (perfile_order ("r1".data :: "r2".data :: [])).2 2 0 (by decide) (by decide)
    (by decide) (by decide)

/-! ### C7 — retry policy -/

theorem retryRun_allfail (succeeds : ℕ → Bool) (h : ∀ n, succeeds n = false) :
    ∀ fuel attempt, retryRun succeeds attempt fuel = none := by
  intro fuel
  induction fuel with
  | zero => intro attempt; rfl
  | succ fuel ih =>
      intro attempt
      simp only [retryRun, h attempt, Bool.false_eq_true, if_false]
      exact ih (attempt + 1)

theorem retryRun_first_success (succeeds : ℕ → Bool) :
    ∀ (fuel attempt n : ℕ), attempt ≤ n → succeeds n = true →
      (∀ m, attempt ≤ m → m < n → succeeds m = false) →
      n < attempt + fuel → retryRun succeeds attempt fuel = some n := by
  intro fuel
  induction fuel with
  | zero => intro attempt n h1 _ _ h4; omega
  | succ fuel ih =>
      intro attempt n h1 h2 h3 h4
      by_cases ha : succeeds attempt = true
      · have hn : n = attempt := by
          by_contra hne
          have hlt : attempt < n := lt_of_le_of_ne h1 (fun he => hne he.symm)
          have := h3 attempt le_rfl hlt
          rw [this] at ha
          cases ha
        subst hn
        simp [retryRun, ha]
      · have ha' : succeeds attempt = false := by
          cases hb : succeeds attempt
          · rfl
          · exact absurd hb ha
        have hne : attempt ≠ n := by
          intro he
          rw [he, h2] at ha'
          cases ha'
        simp only [retryRun, ha', Bool.false_eq_true, if_false]
        exact ih (attempt + 1) n (by omega) h2
          (fun m hm1 hm2 => h3 m (by omega) hm2) (by omega)

/-- C7 counterexample: the source wraps the extraction call in a bare
tenacity.retry decorator, whose policy is stop-never with no wait — on a
permanently failing tool the retry loop never terminates, so no bound is ever
exhausted and no fatal failure is ever surfaced. -/
theorem retry_unbounded_counterexample : ¬ retryTerminates (fun _ => false) := by
  rintro ⟨fuel, hf⟩
  rw [retryRun_allfail (fun _ => false) (fun _ => rfl) fuel 0] at hf
  cases hf

/-- C7 amended: retries are unbounded with no backoff; the only outcome the
caller ever observes is success at the first successful attempt — failed
attempts are invisible — and with a permanently failing tool the runner never
terminates. -/
theorem retry_transparent (succeeds : ℕ → Bool) :
    (∀ n, succeeds n = true → (∀ m, m < n → succeeds m = false) →
      ∀ fuel, n < fuel → retryRun succeeds 0 fuel = some n) ∧
    ((∀ n, succeeds n = false) → ¬ retryTerminates succeeds) := by
  constructor
  · intro n hn hmin fuel hf
    exact retryRun_first_success succeeds fuel 0 n (Nat.zero_le n) hn
      (fun m _ hm => hmin m hm) (by omega)
  · intro hall
    rintro ⟨fuel, hf⟩
    rw [retryRun_allfail succeeds hall fuel 0] at hf
    cases hf

/-- Witness for the retry theorem: a tool succeeding at its first attempt is
observed as success number zero. -/
theorem retry_transparent_witness : retryRun (fun _ => true) 0 1 = some 0 :=
  (retry_transparent (fun _ => true)).1 0 rfl
    (fun m hm => absurd hm (Nat.not_lt_zero m)) 1 Nat.zero_lt_one

/-! ### C1 — merge step of the per-file driver -/

/-- C1: at a concrete input reaching the merge step, the per-file driver ends
with TypeError — line 161 calls mergebam with two arguments though it declares
three required parameters — and neither the merge tool nor the index tool is
ever invoked, for any force value or filesystem state reached there. -/
theorem merge_call_type_error :
    (extract1kgBAM_run (fun _ => false) "s.bam".data "wd".data
      [ "chr1:1-100".data ] false).2 = some PyErr.typeError ∧
    Tool.merge ∉ (extract1kgBAM_run (fun _ => false) "s.bam".data "wd".data
      [ "chr1:1-100".data ] false).1 ∧
    Tool.index ∉ (extract1kgBAM_run (fun _ => false) "s.bam".data "wd".data
      [ "chr1:1-100".data ] false).1 := by
  refine ⟨rfl, by decide, by decide⟩

/-! ### C10 — purge pattern -/

theorem matchHere_true_decomp (s : Str) (h : matchHere s = true) :
    ∃ (c0 c4 : Char) (v : Str),
      s = c0 :: 'b' :: 'a' :: 'm' :: c4 :: 'b' :: 'a' :: 'i' :: v ∧
      c0 ≠ '\n' ∧ c4 ≠ '\n' := by
  rcases s with _ | ⟨c0, _ | ⟨c1, _ | ⟨c2, _ | ⟨c3, _ | ⟨c4, _ | ⟨c5, _ | ⟨c6, _ | ⟨c7, v⟩⟩⟩⟩⟩⟩⟩⟩ <;>
    simp [matchHere] at h
  obtain ⟨⟨⟨⟨⟨⟨⟨h0, h1⟩, h2⟩, h3⟩, h4⟩, h5⟩, h6⟩, h7⟩ := h
  subst h1
  subst h2
  subst h3
  subst h5
  subst h6
  subst h7
  exact ⟨c0, c4, v, rfl, h0, h4⟩

theorem searchBamBai_of_decomp (u v : Str) (c0 c4 : Char)
    (h0 : c0 ≠ '\n') (h4 : c4 ≠ '\n') :
    searchBamBai (u ++ c0 :: 'b' :: 'a' :: 'm' :: c4 :: 'b' :: 'a' :: 'i' :: v) = true := by
  induction u with
  | nil => simp [searchBamBai, matchHere, h0, h4]
  | cons a u ih =>
      rw [List.cons_append]
      simp only [searchBamBai, Bool.or_eq_true]
      exact Or.inr ih

theorem searchBamBai_iff (f : Str) : searchBamBai f = true ↔ hasBamBaiMatch f := by
  constructor
  · induction f with
    | nil => intro h; cases h
    | cons c rest ih =>
        intro h
        have h' : matchHere (c :: rest) = true ∨ searchBamBai rest = true := by
          simpa [searchBamBai, Bool.or_eq_true] using h
        rcases h' with h1 | h2
        · obtain ⟨c0, c4, v, heq, h0, h4⟩ := matchHere_true_decomp _ h1
          exact ⟨[], v, c0, c4, by simpa using heq, h0, h4⟩
        · obtain ⟨u, v, c0, c4, heq, h0, h4⟩ := ih h2
          exact ⟨c :: u, v, c0, c4, by rw [List.cons_append, heq], h0, h4⟩
  · rintro ⟨u, v, c0, c4, rfl, h0, h4⟩
    exact searchBamBai_of_decomp u v c0 c4 h0 h4

/-- C10 counterexample: the file name consisting of a newline followed by
bamXbai contains a window matching the claim's any-character reading of the
pattern, yet Python's dot does not match the newline, so the code does not
match it and the purge sweep keeps the file that the claim says is removed. -/
theorem purge_newline_counterexample :
    anyDotSearch "\nbamXbai".data = true ∧
    searchBamBai "\nbamXbai".data = false ∧
    purge [ "\nbamXbai".data ] = [ "\nbamXbai".data ] := by
  refine ⟨rfl, by decide, by decide⟩

/-- C10 amended: the sweep deletes exactly those files of the directory whose
name contains a substring matching the pattern dot b a m dot b a i in which
each dot matches any single character other than a newline. -/
theorem purge_pattern_amended (files : List Str) (f : Str) (hf : f ∈ files) :
    f ∉ purge files ↔ hasBamBaiMatch f := by
  rw [← searchBamBai_iff]
  constructor
  · intro hnot
    by_cases hs : searchBamBai f = true
    · exact hs
    · exact absurd (List.mem_filter.mpr ⟨hf, by simp [hs]⟩) hnot
  · intro hs hmem
    have hkeep := (List.mem_filter.mp hmem).2
    simp [hs] at hkeep

/-- Witness for the purge characterization at a concrete directory holding the
single file x.bam.bai. -/
theorem purge_pattern_amended_witness :
    ("x.bam.bai".data ∉ purge [ "x.bam.bai".data ] ↔ hasBamBaiMatch "x.bam.bai".data) :=
  purge_pattern_amended [ "x.bam.bai".data ] "x.bam.bai".data (by simp)

end ExtractBam
